import Mathlib

/-!
Shallow embedding of `src/jira_stat.py` (the timeline-reconstruction and
flow-classification core of the def-toolkit repository), together with
theorems checking the natural-language specification against it.

Modelling conventions:
* Instants are seconds since the Unix epoch in UTC, as plain `Nat`;
  a calendar date is its day number `t / 86400`, and `midnight d = d * 86400`
  models `datetime.combine(date, time(0), tzinfo=timezone.utc)`.
* A Python value that is either `None` or a string is `Option String`
  (`Label`); Python truthiness on such a value is `pyTruthy`.
* `datetime.now(timezone.utc).date()` is a parameter `today : Nat`.
* Python's stable `list.sort(key=...)` is `sortByLt` (a stable insertion
  sort); Python dicts keyed by issue key are modelled by iterating over the
  issue list itself (JIRA issue keys are unique).
-/

namespace JiraStat

/-- Python `dt.date()` for a UTC instant: the day number since the epoch. -/
def dateOf (t : Nat) : Nat := t / 86400

/-- Python `datetime.combine(d, time(0), tzinfo=timezone.utc)`: midnight UTC of day `d`. -/
def midnight (d : Nat) : Nat := d * 86400

/-- A Python value that is either `None` or a string. -/
abbrev Label := Option String

/-- Python truthiness of a `None`-or-string value: `None` and `''` are falsy. -/
def pyTruthy : Label → Bool
  | none => false
  | some s => s ≠ ""

/-- Python `v or None` for a `None`-or-string `v`: the empty string collapses
to `None` (lines 37-38 of `jira_stat.py`). -/
def orNone : Option String → Option String
  | some s => if s = "" then none else some s
  | none => none

/-- Python `v or ''` for a `None`-or-string `v`: `None` collapses to the
empty string (lines 117-118 of `jira_stat.py`). -/
def orEmpty : Option String → String
  | some s => s
  | none => ""

/-- The JSON value stored for the analysed field in `issue['fields']`:
either a structured object (a dict, whose `name` entry may be absent)
or a bare string scalar. -/
inductive FieldValue where
  | obj (name : Option String)
  | str (s : String)
deriving DecidableEq, Repr

/-- Line 47, `val.get('name') if isinstance(val, dict) else val`, where the
outer `Option` is `issue['fields'].get(field_id)` being absent or null. -/
def normVal : Option FieldValue → Label
  | some (.obj name) => name
  | some (.str s) => some s
  | none => none

/-- One entry of `hist['items']`. -/
structure Item where
  field : String
  fromString : Option String
  toString : Option String
deriving DecidableEq, Repr

/-- One entry of `issue['changelog']['histories']`. -/
structure History where
  created : Nat
  items : List Item
deriving DecidableEq, Repr

/-- One entry of `data['issues']`, restricted to the parts the program reads:
`key`, `fields['created']`, `fields.get(field_id)` and the changelog. -/
structure Issue where
  key : String
  created : Nat
  fieldVal : Option FieldValue
  histories : List History
deriving DecidableEq, Repr

/-! ### Stable sorting (Python `list.sort`) -/

/-- Insert `x` after every element `y` with `lt y x`, i.e. before the first
element not strictly below it; with `sortByLt` this is a stable ascending sort. -/
def insertLt {α : Type} (lt : α → α → Bool) (x : α) : List α → List α
  | [] => [x]
  | y :: ys => if lt y x then y :: insertLt lt x ys else x :: y :: ys

/-- Stable insertion sort by a strict comparison, modelling Python's stable
`list.sort` / `sorted`. -/
def sortByLt {α : Type} (lt : α → α → Bool) : List α → List α
  | [] => []
  | x :: xs => insertLt lt x (sortByLt lt xs)

/-- Strict comparison on instants, for `sort(key=lambda x: x[0])`. -/
def instantLt {β : Type} (a b : Nat × β) : Bool := a.1 < b.1

/-- Lexicographic comparison of code-point sequences: Python's `str <`. -/
def charListLt : List Char → List Char → Bool
  | _, [] => false
  | [], _ :: _ => true
  | c :: cs, d :: ds =>
      c.toNat < d.toNat || (c.toNat = d.toNat && charListLt cs ds)

/-- Python's `str <`: lexicographic by code point. -/
def strLt (a b : String) : Bool := charListLt a.data b.data

/-- Strict comparison on labels used by Python's `sorted`; the cross cases
`None < str` never arise in a run that does not raise `TypeError` and are
fixed arbitrarily. -/
def labelLt : Label → Label → Bool
  | none, none => false
  | none, some _ => true
  | some _, none => false
  | some a, some b => strLt a b

/-! ### EventExtractor (`extract_field_counts`, lines 31-40) -/

/-- Lines 32-40: the `(ts, fromString or None, toString or None)` triples for
the items of the target field, sorted ascending by timestamp (stable). -/
def historyEvents (fieldId : String) (issue : Issue) :
    List (Nat × Label × Label) :=
  sortByLt instantLt
    (issue.histories.flatMap fun hist =>
      (hist.items.filter fun item => item.field = fieldId).map fun item =>
        (hist.created, orNone item.fromString, orNone item.toString))

/-- Lines 42-47: the initial status — the first history event's from-value when
truthy, else the normalized current field value. -/
def initStatus (fieldId : String) (issue : Issue) : Label :=
  match historyEvents fieldId issue with
  | e :: _ => if pyTruthy e.2.1 then e.2.1 else normVal issue.fieldVal
  | [] => normVal issue.fieldVal

/-! ### TimelineReconstructor (lines 49-57) -/

/-- Lines 49-56: `[(midnight of creation date, init_status)]` followed by
`(ts, to)` for each history event, re-sorted ascending by instant. -/
def timeline (fieldId : String) (issue : Issue) : List (Nat × Label) :=
  sortByLt instantLt
    ((midnight (dateOf issue.created), initStatus fieldId issue) ::
      (historyEvents fieldId issue).map fun e => (e.1, e.2.2))

/-- Lines 50 and 53: every label entering `all_statuses`, deduplicated
(the Python `set`). -/
def allStatuses (fieldId : String) (issues : List Issue) : List Label :=
  (issues.flatMap fun issue =>
    initStatus fieldId issue ::
      (historyEvents fieldId issue).map fun e => e.2.2).dedup

/-- Line 59: the date of every fact of every timeline. -/
def eventDates (fieldId : String) (issues : List Issue) : List Nat :=
  issues.flatMap fun issue => (timeline fieldId issue).map fun f => dateOf f.1

/-- Lines 70-78: the scan keeping the last status whose instant is at or
before the snapshot, with early exit at the first later instant. -/
def scanStateAux (snap : Nat) : List (Nat × Label) → Label → Label
  | [], current => current
  | (ts, status) :: rest, current =>
      if ts ≤ snap then scanStateAux snap rest status else current

/-- The Python loop of lines 71-78 started with `current = None`. -/
def scanState (events : List (Nat × Label)) (snap : Nat) : Label :=
  scanStateAux snap events none

/-- Lines 69-80: the tally `count[s]` for one status label `s` — the number of
issues whose scanned state at the snapshot is truthy and equals `s`
(`if current: count[current] += 1`). -/
def countLabel (fieldId : String) (issues : List Issue) (snap : Nat)
    (s : Label) : Nat :=
  (issues.filter fun issue =>
    let current := scanState (timeline fieldId issue) snap
    pyTruthy current && (current == s)).length

/-- Line 65, `sorted(all_statuses)`. Python's `sorted` raises `TypeError` as
soon as it compares `None` with a `str`, which happens exactly when the set
holds `None` together with at least one string; otherwise it returns the
ascending ordering. -/
def pySortedLabels (ls : List Label) : Except Unit (List Label) :=
  if ls.contains none && ls.any Option.isSome then .error ()
  else .ok (sortByLt labelLt ls)

/-- Python `[start_date + timedelta(days=n) for n in range((end_date - start_date).days + 1)]`:
the inclusive day range, empty when `today < start`. -/
def dateRange (start today : Nat) : List Nat :=
  (List.range (today + 1 - start)).map fun n => start + n

/-- Line 62: `min(dates)` over a nonempty date list (0 when empty; the
empty case is unreachable because it is guarded at line 60). -/
def snapStartDate (fieldId : String) (issues : List Issue) : Nat :=
  match eventDates fieldId issues with
  | [] => 0
  | d :: ds => ds.foldl Nat.min d

/-- Lines 20-99, `extract_field_counts` without the file writes: `.ok none`
models the early `return [], []` of line 61, `.error ()` the `TypeError`
raised by `sorted` at line 65, and `.ok (some (rows, status_list))` the
computed `daily_counts` and `status_list`. -/
def extractFieldCounts (fieldId : String) (issues : List Issue) (today : Nat) :
    Except Unit (Option (List (Nat × List Nat) × List Label)) :=
  match eventDates fieldId issues with
  | [] => .ok none
  | d :: ds =>
    match pySortedLabels (allStatuses fieldId issues) with
    | .error e => .error e
    | .ok statusList =>
      .ok (some
        ((dateRange (ds.foldl Nat.min d) today).map fun day =>
          (day, statusList.map (countLabel fieldId issues (midnight day))),
         statusList))

/-! ### FlowClassifier / FlowAggregator (`extract_flow_counts`, lines 102-183) -/

/-- One element of `transitions` (lines 108-120): `(key, date, from, to)`,
with the date taken from the history timestamp and the empty string standing
for an absent or empty value (`or ''`). -/
structure Transition where
  key : String
  date : Nat
  fromLabel : String
  toLabel : String
deriving DecidableEq, Repr

/-- Lines 108-120: every item of the target field becomes a transition; null
or empty endpoint values become the empty string. -/
def flowTransitions (fieldId : String) (issues : List Issue) : List Transition :=
  issues.flatMap fun issue =>
    issue.histories.flatMap fun hist =>
      (hist.items.filter fun item => item.field = fieldId).map fun item =>
        ⟨issue.key, dateOf hist.created, orEmpty item.fromString,
          orEmpty item.toString⟩

/-- Line 120: the `statuses` set — every from- and to-label observed,
deduplicated. -/
def flowStatuses (fieldId : String) (issues : List Issue) : List String :=
  ((flowTransitions fieldId issues).flatMap fun t =>
    [t.fromLabel, t.toLabel]).dedup

/-- The persisted Transition Matrix: a nested association list
`fromState -> toState -> action`. -/
abbrev Config := List (String × List (String × String))

/-- Line 124: the bootstrap template `{s: {t: 'IGNORE' for t in statuses} for s in statuses}`. -/
def bootstrapMatrix (statuses : List String) : Config :=
  statuses.map fun s => (s, statuses.map fun t => (t, "IGNORE"))

/-- Line 136: `config.get(_from, {}).get(_to, 'IGNORE')`. -/
def lookupAction (config : Config) (f t : String) : String :=
  match config.lookup f with
  | some row => (row.lookup t).getD "IGNORE"
  | none => "IGNORE"

/-- Lines 134-143: the accumulated `ticket_date_counts[(key, datestr)]`
IN/OUT pair for one `(key, date)`; only the IN/OUT/INOUT branches touch
the entry. -/
def ticketDateCounts (config : Config) (trs : List Transition)
    (k : String) (d : Nat) : Nat × Nat :=
  trs.foldl (fun acc t =>
    if t.key = k ∧ t.date = d then
      let action := lookupAction config t.fromLabel t.toLabel
      if action = "IN" then (acc.1 + 1, acc.2)
      else if action = "OUT" then (acc.1, acc.2 + 1)
      else if action = "INOUT" then (acc.1 + 1, acc.2 + 1)
      else acc
    else acc) (0, 0)

/-- Is this transition's action one of the three that create and update a
`ticket_date_counts` entry (lines 137-143)? -/
def classifies (config : Config) (t : Transition) : Bool :=
  let action := lookupAction config t.fromLabel t.toLabel
  action = "IN" || action = "OUT" || action = "INOUT"

/-- The key set of `ticket_date_counts`: the `(key, date)` pairs touched by at
least one IN/OUT/INOUT transition. Python dicts keep insertion order, but the
aggregation of lines 156-167 only depends on the key set, so the dedup order
is irrelevant. -/
def classifiedPairs (config : Config) (trs : List Transition) :
    List (String × Nat) :=
  ((trs.filter (classifies config)).map fun t => (t.key, t.date)).dedup

/-- Lines 160-167: one pair's contribution to its date's flow counters. -/
def pairContribution (inCt outCt : Nat) : Nat × Nat :=
  if inCt > outCt then (1, 0)
  else if inCt < outCt then (0, 1)
  else (1, 1)

/-- Lines 156-167 restricted to one date `d`: the `flow_counts[d]` pair,
accumulated over the `ticket_date_counts` entries whose date is `d`
(absent dates give `(0, 0)`, matching `flow_counts.get(ds, {'IN':0,'OUT':0})`
at line 180). -/
def dayFlow (config : Config) (trs : List Transition) (d : Nat) : Nat × Nat :=
  ((classifiedPairs config trs).filter fun p => p.2 = d).foldl
    (fun acc p =>
      let c := pairContribution (ticketDateCounts config trs p.1 p.2).1
        (ticketDateCounts config trs p.1 p.2).2
      (acc.1 + c.1, acc.2 + c.2)) (0, 0)

/-- Lines 148-152: `min(dates)` over all transition dates, or today when there
are no transitions. -/
def flowStartDate (trs : List Transition) (today : Nat) : Nat :=
  match trs.map (fun t => t.date) with
  | [] => today
  | d :: ds => ds.foldl Nat.min d

/-- Lines 130-183 of `extract_flow_counts` once the config exists: the rows of
`in-out_flow.csv`, one `(date, IN, OUT)` triple per day from the earliest
transition date through today. -/
def extractFlowCounts (config : Config) (fieldId : String)
    (issues : List Issue) (today : Nat) : List (Nat × Nat × Nat) :=
  let trs := flowTransitions fieldId issues
  (dateRange (flowStartDate trs today) today).map fun d =>
    (d, dayFlow config trs d)

/-! ### `main` (lines 186-201) -/

/-- The observable outcome of one `main` run: the snapshot rows and status
list from `extract_field_counts`, the flow rows when produced, and the matrix
written when the config file was absent (lines 122-128). -/
structure MainResult where
  rows : List (Nat × List Nat)
  statusList : List Label
  flow : Option (List (Nat × Nat × Nat))
  wroteMatrix : Option Config
deriving DecidableEq, Repr

/-- Lines 186-201, `main`: run `extract_field_counts` first; on the
no-data early return stop; otherwise run `extract_flow_counts`, which either
bootstraps the matrix and returns no flow table (config absent, lines
122-128) or produces the flow rows. `.error` is the `TypeError` propagating
out of `extract_field_counts`. -/
def runMain (fieldId : String) (issues : List Issue) (today : Nat)
    (config : Option Config) : Except Unit MainResult :=
  match extractFieldCounts fieldId issues today with
  | .error e => .error e
  | .ok none => .ok ⟨[], [], none, none⟩
  | .ok (some (rows, statusList)) =>
    match config with
    | none =>
      .ok ⟨rows, statusList, none,
        some (bootstrapMatrix (flowStatuses fieldId issues))⟩
    | some cfg =>
      .ok ⟨rows, statusList,
        some (extractFlowCounts cfg fieldId issues today), none⟩

/-! ### Lemmas about the stable sort -/

/-- An asymmetric strict comparison. -/
def LtAsymm {α : Type} (lt : α → α → Bool) : Prop :=
  ∀ a b, lt a b = true → lt b a = false

/-- Transitivity of the complement relation `lt b a = false` (i.e. of `≤`). -/
def LtNegtrans {α : Type} (lt : α → α → Bool) : Prop :=
  ∀ a b c, lt b a = false → lt c b = false → lt c a = false

theorem insertLt_perm {α : Type} (lt : α → α → Bool) (x : α) (l : List α) :
    List.Perm (insertLt lt x l) (x :: l) := by
  induction l with
  | nil => simp [insertLt]
  | cons y ys ih =>
    simp only [insertLt]
    by_cases h : lt y x = true
    · rw [if_pos h]
      exact ((ih.cons y).trans (List.Perm.swap x y ys))
    · rw [if_neg h]

theorem sortByLt_perm {α : Type} (lt : α → α → Bool) (l : List α) :
    List.Perm (sortByLt lt l) l := by
  induction l with
  | nil => simp [sortByLt]
  | cons x xs ih =>
    exact (insertLt_perm lt x (sortByLt lt xs)).trans (ih.cons x)

theorem mem_sortByLt {α : Type} {lt : α → α → Bool} {a : α} {l : List α} :
    a ∈ sortByLt lt l ↔ a ∈ l :=
  (sortByLt_perm lt l).mem_iff

theorem pairwise_insertLt {α : Type} {lt : α → α → Bool}
    (hasymm : LtAsymm lt) (hneg : LtNegtrans lt) (x : α) {l : List α}
    (h : l.Pairwise fun a b => lt b a = false) :
    (insertLt lt x l).Pairwise fun a b => lt b a = false := by
  induction l with
  | nil => simp [insertLt]
  | cons y ys ih =>
    rw [List.pairwise_cons] at h
    obtain ⟨hy, hys⟩ := h
    simp only [insertLt]
    by_cases hc : lt y x = true
    · rw [if_pos hc]
      refine List.Pairwise.cons (fun z hz => ?_) (ih hys)
      rcases List.mem_cons.mp ((insertLt_perm lt x ys).mem_iff.mp hz) with hz2 | hz2
      · exact hz2 ▸ hasymm y x hc
      · exact hy z hz2
    · rw [if_neg hc]
      have hc2 : lt y x = false := by
        cases hyx : lt y x
        · rfl
        · exact absurd hyx hc
      refine List.Pairwise.cons (fun z hz => ?_) (List.pairwise_cons.mpr ⟨hy, hys⟩)
      rcases List.mem_cons.mp hz with hz2 | hz2
      · subst hz2
        exact hc2
      · exact hneg x y z hc2 (hy z hz2)

theorem pairwise_sortByLt {α : Type} {lt : α → α → Bool}
    (hasymm : LtAsymm lt) (hneg : LtNegtrans lt) (l : List α) :
    (sortByLt lt l).Pairwise fun a b => lt b a = false := by
  induction l with
  | nil => simp [sortByLt]
  | cons x xs ih => exact pairwise_insertLt hasymm hneg x ih

theorem sortByLt_ne_nil {α : Type} {lt : α → α → Bool} {l : List α}
    (h : l ≠ []) : sortByLt lt l ≠ [] := by
  intro hnil
  exact h (List.Perm.eq_nil ((hnil ▸ sortByLt_perm lt l).symm))

theorem instantLt_asymm {β : Type} : LtAsymm (@instantLt β) := by
  intro a b hab
  simp only [instantLt, decide_eq_true_eq] at hab
  simp only [instantLt, decide_eq_false_iff_not]
  omega

theorem instantLt_negtrans {β : Type} : LtNegtrans (@instantLt β) := by
  intro a b c hba hcb
  simp only [instantLt, decide_eq_false_iff_not] at hba hcb ⊢
  omega

theorem charListLt_asymm :
    ∀ a b, charListLt a b = true → charListLt b a = false := by
  intro a
  induction a with
  | nil =>
    intro b hb
    cases b with
    | nil => simp [charListLt] at hb
    | cons d ds => rfl
  | cons c cs ih =>
    intro b hb
    cases b with
    | nil => simp [charListLt] at hb
    | cons d ds =>
      simp only [charListLt, Bool.or_eq_true, Bool.and_eq_true,
        decide_eq_true_eq] at hb
      simp only [charListLt, Bool.or_eq_false_iff, Bool.and_eq_false_iff,
        decide_eq_false_iff_not]
      rcases hb with h | h2
      · exact ⟨by omega, Or.inl (by omega)⟩
      · obtain ⟨he, hlt⟩ := h2
        exact ⟨by omega, Or.inr (ih ds hlt)⟩

theorem charListLt_negtrans :
    ∀ a b c, charListLt b a = false → charListLt c b = false →
      charListLt c a = false := by
  intro a
  induction a with
  | nil =>
    intro b c hba hcb
    cases c <;> rfl
  | cons x xs ih =>
    intro b c hba hcb
    cases b with
    | nil => simp [charListLt] at hba
    | cons y ys =>
      cases c with
      | nil => simp [charListLt] at hcb
      | cons z zs =>
        simp only [charListLt, Bool.or_eq_false_iff, Bool.and_eq_false_iff,
          decide_eq_false_iff_not] at hba hcb ⊢
        obtain ⟨hyx, hba2⟩ := hba
        obtain ⟨hzy, hcb2⟩ := hcb
        refine ⟨by omega, ?_⟩
        by_cases hzx : z.toNat = x.toNat
        · have hyx2 : y.toNat = x.toNat := by omega
          have hzy2 : z.toNat = y.toNat := by omega
          have h1 : charListLt ys xs = false := by
            rcases hba2 with h | h
            · exact absurd hyx2 h
            · exact h
          have h2 : charListLt zs ys = false := by
            rcases hcb2 with h | h
            · exact absurd hzy2 h
            · exact h
          exact Or.inr (ih ys zs h1 h2)
        · exact Or.inl hzx

theorem labelLt_asymm : LtAsymm labelLt := by
  intro a b hab
  cases a <;> cases b <;> simp_all [labelLt, strLt]
  exact charListLt_asymm _ _ hab

theorem labelLt_negtrans : LtNegtrans labelLt := by
  intro a b c hba hcb
  cases a <;> cases b <;> cases c <;> simp_all [labelLt, strLt]
  exact charListLt_negtrans _ _ _ hba hcb


/-! ### The scan of lines 70-78 computes the last fact at or before the snapshot -/

/-- The last fact whose instant is at or before `t`: the first match when
searching the list from its end. -/
def lastFactLE (l : List (Nat × Label)) (t : Nat) : Option (Nat × Label) :=
  l.reverse.find? fun f => f.1 ≤ t

theorem scanStateAux_eq_lastFactLE (snap : Nat) :
    ∀ (l : List (Nat × Label)) (cur : Label),
      l.Pairwise (fun a b => a.1 ≤ b.1) →
      scanStateAux snap l cur = ((lastFactLE l snap).map Prod.snd).getD cur := by
  intro l
  induction l with
  | nil => intro cur _; rfl
  | cons f rest ih =>
    intro cur hp
    rw [List.pairwise_cons] at hp
    obtain ⟨hf, hrest⟩ := hp
    obtain ⟨ts, status⟩ := f
    by_cases hle : ts ≤ snap
    · rw [show scanStateAux snap ((ts, status) :: rest) cur
          = scanStateAux snap rest status from by simp [scanStateAux, hle]]
      rw [ih status hrest]
      simp only [lastFactLE, List.reverse_cons, List.find?_append]
      cases hfind : rest.reverse.find? (fun f => decide (f.1 ≤ snap)) with
      | some g => simp [Option.or]
      | none =>
        simp only [Option.or]
        have : List.find? (fun f => decide (f.1 ≤ snap)) [(ts, status)]
            = some (ts, status) :=
          List.find?_cons_of_pos _ (by simpa using hle)
        simp [this]
    · rw [show scanStateAux snap ((ts, status) :: rest) cur = cur from by
        simp [scanStateAux, hle]]
      have hnone : lastFactLE ((ts, status) :: rest) snap = none := by
        apply List.find?_eq_none.mpr
        intro x hx
        simp only [List.reverse_cons, List.mem_append] at hx
        rcases hx with hx | hx
        · have := hf x (List.mem_reverse.mp hx)
          simp only [decide_eq_true_eq]
          omega
        · simp only [List.mem_singleton] at hx
          subst hx
          simpa using hle
      rw [hnone]
      rfl

theorem scanState_eq_lastFactLE {l : List (Nat × Label)} (snap : Nat)
    (h : l.Pairwise fun a b => a.1 ≤ b.1) :
    scanState l snap = ((lastFactLE l snap).map Prod.snd).getD none :=
  scanStateAux_eq_lastFactLE snap l none h

theorem lastFactLE_eq_none_iff {l : List (Nat × Label)} {t : Nat} :
    lastFactLE l t = none ↔ ∀ f ∈ l, t < f.1 := by
  simp only [lastFactLE, List.find?_eq_none, List.mem_reverse,
    decide_eq_true_eq]
  constructor
  · intro h f hf
    have := h f hf
    omega
  · intro h f hf
    have := h f hf
    omega

/-! ### Timeline structure -/

theorem timeline_perm (fieldId : String) (issue : Issue) :
    List.Perm (timeline fieldId issue)
      ((midnight (dateOf issue.created), initStatus fieldId issue) ::
        (historyEvents fieldId issue).map fun e => (e.1, e.2.2)) :=
  sortByLt_perm _ _

theorem timeline_sorted (fieldId : String) (issue : Issue) :
    (timeline fieldId issue).Pairwise fun a b => a.1 ≤ b.1 := by
  have h := @pairwise_sortByLt _ (@instantLt Label)
    instantLt_asymm instantLt_negtrans
    ((midnight (dateOf issue.created), initStatus fieldId issue) ::
      (historyEvents fieldId issue).map fun e => (e.1, e.2.2))
  refine h.imp ?_
  intro a b hab
  have := of_decide_eq_false hab
  omega

theorem historyEvents_sorted (fieldId : String) (issue : Issue) :
    (historyEvents fieldId issue).Pairwise fun a b => a.1 ≤ b.1 := by
  have h := @pairwise_sortByLt _ (@instantLt (Label × Label))
    instantLt_asymm instantLt_negtrans
    (issue.histories.flatMap fun hist =>
      (hist.items.filter fun item => item.field = fieldId).map fun item =>
        (hist.created, orNone item.fromString, orNone item.toString))
  refine h.imp ?_
  intro a b hab
  have := of_decide_eq_false hab
  omega

theorem creationFact_mem_timeline (fieldId : String) (issue : Issue) :
    (midnight (dateOf issue.created), initStatus fieldId issue)
      ∈ timeline fieldId issue :=
  (timeline_perm fieldId issue).mem_iff.mpr (List.mem_cons_self _ _)

theorem timeline_ne_nil (fieldId : String) (issue : Issue) :
    timeline fieldId issue ≠ [] :=
  sortByLt_ne_nil (by simp)

/-- Every fact of the timeline is the creation fact or comes from a history
event's timestamp and to-label. -/
theorem mem_timeline (fieldId : String) (issue : Issue) {f : Nat × Label}
    (hf : f ∈ timeline fieldId issue) :
    f = (midnight (dateOf issue.created), initStatus fieldId issue) ∨
      ∃ e ∈ historyEvents fieldId issue, f = (e.1, e.2.2) := by
  rcases List.mem_cons.mp ((timeline_perm fieldId issue).mem_iff.mp hf) with
    h | h
  · exact Or.inl h
  · obtain ⟨e, he, hfe⟩ := List.mem_map.mp h
    exact Or.inr ⟨e, he, hfe.symm⟩

/-! ### Minimum of a nonempty list via `foldl` (Python `min`) -/

theorem foldl_min_le_init : ∀ (l : List Nat) (init : Nat),
    l.foldl Nat.min init ≤ init := by
  intro l
  induction l with
  | nil => intro init; simp
  | cons e es ih =>
    intro init
    calc (e :: es).foldl Nat.min init = es.foldl Nat.min (Nat.min init e) := rfl
    _ ≤ Nat.min init e := ih _
    _ ≤ init := Nat.min_le_left _ _

theorem foldl_min_le : ∀ (ds : List Nat) (d x : Nat), x ∈ d :: ds →
    ds.foldl Nat.min d ≤ x := by
  intro ds
  induction ds with
  | nil =>
    intro d x hx
    rcases List.mem_singleton.mp hx with rfl
    simp
  | cons e es ih =>
    intro d x hx
    have hstep : (e :: es).foldl Nat.min d = es.foldl Nat.min (Nat.min d e) :=
      rfl
    rcases List.mem_cons.mp hx with heq | hx2
    · rw [hstep, heq]
      exact le_trans (foldl_min_le_init es (Nat.min d e)) (Nat.min_le_left _ _)
    · rcases List.mem_cons.mp hx2 with heq | hx3
      · rw [hstep, heq]
        exact le_trans (foldl_min_le_init es (Nat.min d e))
          (Nat.min_le_right _ _)
      · rw [hstep]
        exact ih (Nat.min d e) x (List.mem_cons_of_mem _ hx3)

theorem foldl_min_mem : ∀ (ds : List Nat) (d : Nat),
    ds.foldl Nat.min d ∈ d :: ds := by
  intro ds
  induction ds with
  | nil => intro d; simp
  | cons e es ih =>
    intro d
    have h := ih (Nat.min d e)
    have hm : Nat.min d e = d ∨ Nat.min d e = e := by
      by_cases hde : d ≤ e
      · exact Or.inl (min_eq_left hde)
      · exact Or.inr (min_eq_right (le_of_not_le hde))
    rcases List.mem_cons.mp h with h2 | h2
    · rcases hm with hm | hm
      · rw [show (e :: es).foldl Nat.min d = es.foldl Nat.min (Nat.min d e)
            from rfl, h2, hm]
        exact List.mem_cons_self _ _
      · rw [show (e :: es).foldl Nat.min d = es.foldl Nat.min (Nat.min d e)
            from rfl, h2, hm]
        exact List.mem_cons_of_mem _ (List.mem_cons_self _ _)
    · exact List.mem_cons_of_mem _ (List.mem_cons_of_mem _ h2)

/-! ### The inclusive day range -/

theorem mem_dateRange {start today x : Nat} :
    x ∈ dateRange start today ↔ start ≤ x ∧ x ≤ today := by
  simp only [dateRange, List.mem_map, List.mem_range]
  constructor
  · rintro ⟨n, hn, rfl⟩
    omega
  · rintro ⟨h1, h2⟩
    exact ⟨x - start, by omega, by omega⟩

theorem nodup_dateRange (start today : Nat) : (dateRange start today).Nodup :=
  (List.nodup_range _).map fun a b hab => by omega

theorem dateRange_map_fst {β : Type} (start today : Nat) (f : Nat → β) :
    ((dateRange start today).map fun d => (d, f d)).map Prod.fst
      = dateRange start today := by
  rw [List.map_map]
  exact List.map_id' _


/-! ### Label invariants of the extracted events -/

theorem orNone_ne_some_empty (v : Option String) : orNone v ≠ some "" := by
  cases v with
  | none => simp [orNone]
  | some s =>
    by_cases h : s = "" <;> simp [orNone, h]

/-- Deconstruct membership in `historyEvents`: every extracted event comes
from an item of the target field. -/
theorem mem_historyEvents {fieldId : String} {issue : Issue}
    {e : Nat × Label × Label} (he : e ∈ historyEvents fieldId issue) :
    ∃ hist ∈ issue.histories, ∃ item ∈ hist.items, item.field = fieldId ∧
      e = (hist.created, orNone item.fromString, orNone item.toString) := by
  have hmem := mem_sortByLt.mp he
  simp only [List.mem_flatMap, List.mem_map, List.mem_filter] at hmem
  obtain ⟨hist, hh, item, ⟨hi, hf⟩, heq⟩ := hmem
  exact ⟨hist, hh, item, hi, by simpa using hf, heq.symm⟩

/-- In the snapshot path, a normalized from- or to-value is never the
empty-string label (the empty string collapses to `None`). -/
theorem historyEvents_no_empty_label {fieldId : String} {issue : Issue}
    {e : Nat × Label × Label} (he : e ∈ historyEvents fieldId issue) :
    e.2.1 ≠ some "" ∧ e.2.2 ≠ some "" := by
  obtain ⟨hist, _, item, _, _, rfl⟩ := mem_historyEvents he
  exact ⟨orNone_ne_some_empty _, orNone_ne_some_empty _⟩

theorem eventDates_nil_iff (fieldId : String) (issues : List Issue) :
    eventDates fieldId issues = [] ↔ issues = [] := by
  constructor
  · intro h
    cases issues with
    | nil => rfl
    | cons i rest =>
      exfalso
      simp only [eventDates, List.flatMap_cons, List.append_eq_nil,
        List.map_eq_nil_iff] at h
      exact timeline_ne_nil fieldId i h.1
  · intro h
    rw [h]
    rfl

theorem mem_allStatuses_ne_nil {fieldId : String} {issues : List Issue}
    {x : Label} (hx : x ∈ allStatuses fieldId issues) : issues ≠ [] := by
  intro h
  rw [h] at hx
  simp [allStatuses] at hx

/-! ### `sorted(all_statuses)` -/

theorem pySortedLabels_ok_eq {ls l2 : List Label}
    (h : pySortedLabels ls = .ok l2) : l2 = sortByLt labelLt ls := by
  unfold pySortedLabels at h
  split at h
  · cases h
  · cases h
    rfl

theorem pySortedLabels_ok_perm {ls l2 : List Label}
    (h : pySortedLabels ls = .ok l2) : List.Perm l2 ls := by
  rw [pySortedLabels_ok_eq h]
  exact sortByLt_perm _ _

theorem pySortedLabels_ok_sorted {ls l2 : List Label}
    (h : pySortedLabels ls = .ok l2) :
    l2.Pairwise fun a b => labelLt b a = false := by
  rw [pySortedLabels_ok_eq h]
  exact pairwise_sortByLt labelLt_asymm labelLt_negtrans ls

theorem pySortedLabels_error {ls : List Label} (h1 : none ∈ ls)
    {s : String} (h2 : some s ∈ ls) : pySortedLabels ls = .error () := by
  unfold pySortedLabels
  rw [if_pos ?_]
  rw [Bool.and_eq_true]
  constructor
  · exact List.elem_eq_true_of_mem h1
  · exact List.any_eq_true.mpr ⟨some s, h2, rfl⟩

/-! ### Counting lemmas for the snapshot rows -/

theorem countLabel_cons (fieldId : String) (i : Issue) (rest : List Issue)
    (snap : Nat) (s : Label) :
    countLabel fieldId (i :: rest) snap s =
      (if pyTruthy (scanState (timeline fieldId i) snap)
          && (scanState (timeline fieldId i) snap == s) then 1 else 0)
        + countLabel fieldId rest snap s := by
  simp only [countLabel, List.filter_cons]
  split
  · rw [List.length_cons]
    omega
  · simp

theorem sum_map_add {α : Type} (l : List α) (f g : α → Nat) :
    (l.map fun x => f x + g x).sum = (l.map f).sum + (l.map g).sum := by
  induction l with
  | nil => simp
  | cons a l ih =>
    simp only [List.map_cons, List.sum_cons, ih]
    omega

theorem indicator_sum_le_one (c : Label) :
    ∀ (sl : List Label), sl.Nodup →
      (sl.map fun s => if pyTruthy c && (c == s) then 1 else 0).sum ≤ 1 := by
  intro sl
  induction sl with
  | nil => intro _; simp
  | cons s0 rest ih =>
    intro hnd
    rw [List.nodup_cons] at hnd
    obtain ⟨hs0, hrest⟩ := hnd
    simp only [List.map_cons, List.sum_cons]
    by_cases hc : (pyTruthy c && (c == s0)) = true
    · rw [if_pos hc]
      have hc2 := hc
      simp only [Bool.and_eq_true] at hc2
      have hceq : c = s0 := beq_iff_eq.mp hc2.2
      have hzero :
          (rest.map fun s => if pyTruthy c && (c == s) then 1 else 0).sum
            = 0 := by
        apply List.sum_eq_zero
        intro x hx
        obtain ⟨s, hs, rfl⟩ := List.mem_map.mp hx
        have hne : ¬ (pyTruthy c && (c == s)) = true := by
          intro habs
          simp only [Bool.and_eq_true] at habs
          have hcs : c = s := beq_iff_eq.mp habs.2
          have hss : s0 = s := hceq.symm.trans hcs
          exact hs0 (by rw [hss]; exact hs)
        rw [if_neg hne]
      omega
    · rw [if_neg hc]
      have := ih hrest
      omega

theorem counts_sum_le (fieldId : String) (snap : Nat) :
    ∀ (issues : List Issue) (sl : List Label), sl.Nodup →
      (sl.map fun s => countLabel fieldId issues snap s).sum
        ≤ issues.length := by
  intro issues
  induction issues with
  | nil =>
    intro sl _
    rw [show (fun s => countLabel fieldId [] snap s) = fun (s : Label) => 0
      from funext fun s => rfl]
    simp
  | cons i rest ih =>
    intro sl hnd
    rw [show (fun s => countLabel fieldId (i :: rest) snap s) = fun s =>
            (if pyTruthy (scanState (timeline fieldId i) snap)
                && (scanState (timeline fieldId i) snap == s) then 1 else 0)
              + countLabel fieldId rest snap s
      from funext fun s => countLabel_cons fieldId i rest snap s, sum_map_add]
    have h1 := indicator_sum_le_one (scanState (timeline fieldId i) snap) sl hnd
    have h2 : (sl.map (countLabel fieldId rest snap)).sum ≤ rest.length :=
      ih sl hnd
    simp only [List.length_cons]
    omega


/-! ### Flow-side lemmas -/

/-- A transition of `(k, d)` whose action increments the IN counter
(lines 137-138 and 141-143). -/
def pInB (config : Config) (k : String) (d : Nat) (t : Transition) : Bool :=
  decide (t.key = k) && decide (t.date = d) &&
    ((lookupAction config t.fromLabel t.toLabel == "IN")
      || (lookupAction config t.fromLabel t.toLabel == "INOUT"))

/-- A transition of `(k, d)` whose action increments the OUT counter
(lines 139-143). -/
def pOutB (config : Config) (k : String) (d : Nat) (t : Transition) : Bool :=
  decide (t.key = k) && decide (t.date = d) &&
    ((lookupAction config t.fromLabel t.toLabel == "OUT")
      || (lookupAction config t.fromLabel t.toLabel == "INOUT"))

theorem foldl_pair_step {α : Type} (fIn fOut : α → Bool)
    (step : Nat × Nat → α → Nat × Nat)
    (hstep : ∀ acc t, step acc t
      = (acc.1 + (if fIn t then 1 else 0), acc.2 + (if fOut t then 1 else 0))) :
    ∀ (l : List α) (acc : Nat × Nat),
      l.foldl step acc = (acc.1 + l.countP fIn, acc.2 + l.countP fOut) := by
  intro l
  induction l with
  | nil => intro acc; simp
  | cons t rest ih =>
    intro acc
    rw [List.foldl_cons, hstep, ih, List.countP_cons, List.countP_cons]
    simp only [Prod.mk.injEq]
    constructor
    · omega
    · omega

theorem flowStep_eq (config : Config) (k : String) (d : Nat)
    (acc : Nat × Nat) (t : Transition) :
    (if t.key = k ∧ t.date = d then
        let action := lookupAction config t.fromLabel t.toLabel
        if action = "IN" then (acc.1 + 1, acc.2)
        else if action = "OUT" then (acc.1, acc.2 + 1)
        else if action = "INOUT" then (acc.1 + 1, acc.2 + 1)
        else acc
      else acc)
    = (acc.1 + (if pInB config k d t then 1 else 0),
       acc.2 + (if pOutB config k d t then 1 else 0)) := by
  by_cases hkd : t.key = k ∧ t.date = d
  · rw [if_pos hkd]
    simp only [pInB, pOutB, decide_eq_true hkd.1, decide_eq_true hkd.2,
      Bool.true_and]
    generalize lookupAction config t.fromLabel t.toLabel = a
    by_cases h1 : a = "IN"
    · subst h1
      simp
    · by_cases h2 : a = "OUT"
      · subst h2
        simp
      · by_cases h3 : a = "INOUT"
        · subst h3
          simp
        · simp [h1, h2, h3]
  · rw [if_neg hkd]
    have hIn : pInB config k d t = false := by
      simp only [pInB]
      rcases not_and_or.mp hkd with h | h
      · simp [h]
      · simp [h]
    have hOut : pOutB config k d t = false := by
      simp only [pOutB]
      rcases not_and_or.mp hkd with h | h
      · simp [h]
      · simp [h]
    rw [hIn, hOut]
    simp

/-- Lines 134-143 as counts: the accumulated per-pair IN (resp. OUT) counter
is the number of transitions of that pair whose action is IN or INOUT
(resp. OUT or INOUT). -/
theorem ticketDateCounts_eq (config : Config) (trs : List Transition)
    (k : String) (d : Nat) :
    ticketDateCounts config trs k d
      = (trs.countP (pInB config k d), trs.countP (pOutB config k d)) := by
  unfold ticketDateCounts
  rw [foldl_pair_step (pInB config k d) (pOutB config k d) _
    (fun acc t => flowStep_eq config k d acc t) trs (0, 0)]
  simp

theorem mem_classifiedPairs {config : Config} {trs : List Transition}
    {p : String × Nat} :
    p ∈ classifiedPairs config trs ↔
      ∃ t ∈ trs, classifies config t = true ∧ t.key = p.1 ∧ t.date = p.2 := by
  simp only [classifiedPairs, List.mem_dedup, List.mem_map, List.mem_filter]
  constructor
  · rintro ⟨t, ⟨ht, hc⟩, rfl⟩
    exact ⟨t, ht, hc, rfl, rfl⟩
  · rintro ⟨t, ht, hc, h1, h2⟩
    refine ⟨t, ⟨ht, hc⟩, ?_⟩
    rw [h1, h2]

/-- Every `(key, date)` pair in the `ticket_date_counts` dict has at least one
classified transition, hence its IN/OUT counters are not both zero. -/
theorem classifiedPairs_counts_ne_zero {config : Config}
    {trs : List Transition} {p : String × Nat}
    (hp : p ∈ classifiedPairs config trs) :
    ticketDateCounts config trs p.1 p.2 ≠ (0, 0) := by
  obtain ⟨t, ht, hc, hk, hd⟩ := mem_classifiedPairs.mp hp
  rw [ticketDateCounts_eq]
  simp only [classifies, Bool.or_eq_true, decide_eq_true_eq] at hc
  intro habs
  rw [Prod.mk.injEq] at habs
  obtain ⟨hin, hout⟩ := habs
  rcases hc with (h | h) | h
  · have : 0 < trs.countP (pInB config p.1 p.2) :=
      List.countP_pos_iff.mpr ⟨t, ht, by simp [pInB, hk, hd, h]⟩
    omega
  · have : 0 < trs.countP (pOutB config p.1 p.2) :=
      List.countP_pos_iff.mpr ⟨t, ht, by simp [pOutB, hk, hd, h]⟩
    omega
  · have : 0 < trs.countP (pInB config p.1 p.2) :=
      List.countP_pos_iff.mpr ⟨t, ht, by simp [pInB, hk, hd, h]⟩
    omega

theorem pairContribution_eq (i o : Nat) :
    pairContribution i o = ((if o ≤ i then 1 else 0), (if i ≤ o then 1 else 0)) := by
  unfold pairContribution
  rcases Nat.lt_trichotomy i o with h | h | h
  · rw [if_neg (by omega), if_pos h, if_neg (by omega), if_pos (by omega)]
  · rw [if_neg (by omega), if_neg (by omega), if_pos (by omega),
      if_pos (by omega)]
  · rw [if_pos (by omega), if_pos (by omega), if_neg (by omega)]

/-- Lines 156-167 as counts: the date's IN counter is the number of
classified pairs of that date with `out_ct <= in_ct`, the OUT counter the
number with `in_ct <= out_ct` (the tie case increments both, matching the
debug line 169). -/
theorem dayFlow_eq (config : Config) (trs : List Transition) (d : Nat) :
    dayFlow config trs d
      = (((classifiedPairs config trs).filter fun p => p.2 = d).countP
          (fun p => decide ((ticketDateCounts config trs p.1 p.2).2
            ≤ (ticketDateCounts config trs p.1 p.2).1)),
         ((classifiedPairs config trs).filter fun p => p.2 = d).countP
          (fun p => decide ((ticketDateCounts config trs p.1 p.2).1
            ≤ (ticketDateCounts config trs p.1 p.2).2))) := by
  unfold dayFlow
  rw [foldl_pair_step
    (fun p => decide ((ticketDateCounts config trs p.1 p.2).2
      ≤ (ticketDateCounts config trs p.1 p.2).1))
    (fun p => decide ((ticketDateCounts config trs p.1 p.2).1
      ≤ (ticketDateCounts config trs p.1 p.2).2))
    _ ?_ _ (0, 0)]
  · simp
  · intro acc p
    simp only
    rw [pairContribution_eq]
    simp only [Prod.mk.injEq]
    constructor
    · by_cases h : (ticketDateCounts config trs p.1 p.2).2
          ≤ (ticketDateCounts config trs p.1 p.2).1
      · rw [if_pos h, if_pos (decide_eq_true h)]
      · rw [if_neg h, if_neg (by simpa using h)]
    · by_cases h : (ticketDateCounts config trs p.1 p.2).1
          ≤ (ticketDateCounts config trs p.1 p.2).2
      · rw [if_pos h, if_pos (decide_eq_true h)]
      · rw [if_neg h, if_neg (by simpa using h)]

theorem dayFlow_of_no_pairs {config : Config} {trs : List Transition}
    {d : Nat}
    (h : ((classifiedPairs config trs).filter fun p => p.2 = d) = []) :
    dayFlow config trs d = (0, 0) := by
  unfold dayFlow
  rw [h]
  rfl


/-! ### Structure of `extract_field_counts` results -/

theorem extractFieldCounts_ok_some {fieldId : String} {issues : List Issue}
    {today : Nat} {rows : List (Nat × List Nat)} {sl : List Label}
    (h : extractFieldCounts fieldId issues today = .ok (some (rows, sl))) :
    pySortedLabels (allStatuses fieldId issues) = .ok sl ∧
    ∃ d ds, eventDates fieldId issues = d :: ds ∧
      rows = (dateRange (ds.foldl Nat.min d) today).map fun day =>
        (day, sl.map (countLabel fieldId issues (midnight day))) := by
  unfold extractFieldCounts at h
  split at h
  · exact absurd h (by simp)
  · rename_i d ds hdates
    split at h
    · exact absurd h (by simp)
    · rename_i statusList hsort
      rw [Except.ok.injEq, Option.some.injEq, Prod.mk.injEq] at h
      obtain ⟨hrows, hsl⟩ := h
      subst hsl
      exact ⟨hsort, d, ds, hdates, hrows.symm⟩

theorem sl_nodup_of_ok {fieldId : String} {issues : List Issue}
    {sl : List Label}
    (hsort : pySortedLabels (allStatuses fieldId issues) = .ok sl) :
    sl.Nodup :=
  (pySortedLabels_ok_perm hsort).nodup_iff.mpr (List.nodup_dedup _)

/-! ### Flow start date and row structure -/

theorem flowStartDate_min {trs : List Transition} (today : Nat)
    (h : trs ≠ []) :
    flowStartDate trs today ∈ trs.map (fun t => t.date) ∧
    ∀ x ∈ trs.map (fun t => t.date), flowStartDate trs today ≤ x := by
  cases trs with
  | nil => exact absurd rfl h
  | cons t ts =>
    constructor
    · exact foldl_min_mem _ _
    · intro x hx
      exact foldl_min_le _ _ x hx

theorem extractFlowCounts_eq (config : Config) (fieldId : String)
    (issues : List Issue) (today : Nat) :
    extractFlowCounts config fieldId issues today
      = (dateRange (flowStartDate (flowTransitions fieldId issues) today)
          today).map
          fun d => (d, dayFlow config (flowTransitions fieldId issues) d) :=
  rfl

/-! ### Bootstrap matrix structure -/

theorem bootstrapMatrix_keys (statuses : List String) :
    (bootstrapMatrix statuses).map Prod.fst = statuses := by
  simp only [bootstrapMatrix, List.map_map]
  exact List.map_id' _

theorem bootstrapMatrix_rows {statuses : List String}
    {row : String × List (String × String)}
    (hrow : row ∈ bootstrapMatrix statuses) :
    row.2.map Prod.fst = statuses ∧ ∀ e ∈ row.2, e.2 = "IGNORE" := by
  simp only [bootstrapMatrix, List.mem_map] at hrow
  obtain ⟨s, hs, rfl⟩ := hrow
  constructor
  · rw [List.map_map]
    exact List.map_id' _
  · intro e he
    simp only [List.mem_map] at he
    obtain ⟨t2, ht2, rfl⟩ := he
    rfl


/-! ### Concrete example inputs -/

/-- An entity created 2024-01-01 (day 19723) with transitions
Open to InProgress at 2024-01-03T10:00Z and InProgress to Done at
2024-01-05T09:00Z. -/
def c8Issue : Issue :=
  { key := "T", created := 19723 * 86400, fieldVal := none,
    histories :=
      [⟨19725 * 86400 + 36000, [⟨"status", some "Open", some "InProgress"⟩]⟩,
       ⟨19727 * 86400 + 32400, [⟨"status", some "InProgress", some "Done"⟩]⟩] }

/-- An entity whose current field value is the empty-string scalar, with no
history. -/
def c2Issue : Issue :=
  { key := "E", created := 100 * 86400, fieldVal := some (.str ""),
    histories := [] }

/-- An entity with a single transition A to B on day 10. -/
def c3Issue : Issue :=
  { key := "K", created := 10 * 86400, fieldVal := none,
    histories := [⟨10 * 86400 + 5, [⟨"status", some "A", some "B"⟩]⟩] }

/-- An entity transitioning A to B on day 10 and B to C on day 12. -/
def c5Issue : Issue :=
  { key := "K", created := 10 * 86400, fieldVal := none,
    histories := [⟨10 * 86400 + 5, [⟨"status", some "A", some "B"⟩]⟩,
                  ⟨12 * 86400 + 5, [⟨"status", some "B", some "C"⟩]⟩] }

/-- A matrix classifying only B to C, as IN. -/
def c5Config : Config := [("B", [("C", "IN")])]

/-- An entity whose only history event has a null fromString, and whose
current field value is absent. -/
def c6Issue : Issue :=
  { key := "K", created := 100 * 86400, fieldVal := none,
    histories := [⟨100 * 86400 + 10, [⟨"status", none, some "B"⟩]⟩] }

/-- An entity with current field value `{"name": "Closed"}` and no history. -/
def c7Issue : Issue :=
  { key := "C", created := 200 * 86400, fieldVal := some (.obj (some "Closed")),
    histories := [] }

/-! ### Claim theorems -/

/-- C1: for every entity, the reconstructed timeline is the fact
`(midnight UTC of the creation date, initial state)` together with one fact
`(instant, to-label)` per extracted event, re-sorted ascending by instant;
the state as of a query instant is the state of the last timeline fact whose
instant is at or before the query instant; no fact qualifies exactly when
the query instant precedes the creation-date midnight (given that history
timestamps do not precede it); and in that case the scanned state is `None`
and the entity is excluded from every label's tally. -/
theorem c1_timeline_state_as_of (fieldId : String) (issue : Issue) (t : Nat)
    (hhist : ∀ e ∈ historyEvents fieldId issue,
      midnight (dateOf issue.created) ≤ e.1) :
    List.Perm (timeline fieldId issue)
        ((midnight (dateOf issue.created), initStatus fieldId issue) ::
          (historyEvents fieldId issue).map fun e => (e.1, e.2.2)) ∧
    (timeline fieldId issue).Pairwise (fun a b => a.1 ≤ b.1) ∧
    scanState (timeline fieldId issue) t
      = ((lastFactLE (timeline fieldId issue) t).map Prod.snd).getD none ∧
    (lastFactLE (timeline fieldId issue) t = none ↔
      t < midnight (dateOf issue.created)) ∧
    (t < midnight (dateOf issue.created) →
      scanState (timeline fieldId issue) t = none ∧
      ∀ s rest, countLabel fieldId (issue :: rest) t s
        = countLabel fieldId rest t s) := by
  have hsorted := timeline_sorted fieldId issue
  have hscan := scanState_eq_lastFactLE t hsorted
  have hiff : lastFactLE (timeline fieldId issue) t = none ↔
      t < midnight (dateOf issue.created) := by
    constructor
    · intro hnone
      exact lastFactLE_eq_none_iff.mp hnone _
        (creationFact_mem_timeline fieldId issue)
    · intro hlt
      apply lastFactLE_eq_none_iff.mpr
      intro f hf
      rcases mem_timeline fieldId issue hf with heq | ⟨e, he, heq⟩
      · rw [heq]
        exact hlt
      · rw [heq]
        exact lt_of_lt_of_le hlt (hhist e he)
  refine ⟨timeline_perm fieldId issue, hsorted, hscan, hiff, ?_⟩
  intro hlt
  have hnone : scanState (timeline fieldId issue) t = none := by
    rw [hscan, hiff.mpr hlt]
    rfl
  refine ⟨hnone, ?_⟩
  intro s rest
  rw [countLabel_cons, hnone]
  simp [pyTruthy]

/-- Witness for C1 at a concrete entity and a query instant before the
creation midnight. -/
theorem c1_witness : scanState (timeline "status" c8Issue) 5 = none := by
  have h := c1_timeline_state_as_of "status" c8Issue 5 (by decide)
  exact (h.2.2.2.2 (by decide)).1

/-- C2 as stated is false: an entity whose current value is the empty-string
scalar has state `''` as of its creation date, yet the snapshot row for that
date shows 0 in the `''` column, because the tally skips falsy states. -/
theorem c2_counterexample :
    extractFieldCounts "status" [c2Issue] 100
      = .ok (some ([(100, [0])], [some ""])) ∧
    scanState (timeline "status" c2Issue) (midnight 100) = some "" :=
  ⟨rfl, rfl⟩

/-- C2 (amended): the snapshot table has one row per date in the inclusive
range from the minimum fact date to today, using one fixed ascending label
ordering made of exactly the observed labels; each row tallies, per label,
the entities whose state as of that date's midnight is that label, except
that entities whose state is `None` or the empty string are never counted;
and with no entities at all the result is empty, not an error. -/
theorem c2_amended (fieldId : String) (issues : List Issue) (today : Nat)
    (rows : List (Nat × List Nat)) (sl : List Label)
    (h : extractFieldCounts fieldId issues today = .ok (some (rows, sl))) :
    extractFieldCounts fieldId ([] : List Issue) today = .ok none ∧
    (∃ start, start ∈ eventDates fieldId issues ∧
      (∀ x ∈ eventDates fieldId issues, start ≤ x) ∧
      rows.map Prod.fst = dateRange start today ∧
      (∀ x, x ∈ rows.map Prod.fst ↔ start ≤ x ∧ x ≤ today)) ∧
    (rows.map Prod.fst).Nodup ∧
    (∀ r ∈ rows, r.2 = sl.map (countLabel fieldId issues (midnight r.1))) ∧
    (∀ s, s ∈ sl ↔ s ∈ allStatuses fieldId issues) ∧
    sl.Pairwise (fun a b => labelLt b a = false) ∧
    (∀ snap s, pyTruthy s = true →
      countLabel fieldId issues snap s
        = (issues.filter fun iss =>
            scanState (timeline fieldId iss) snap == s).length) := by
  obtain ⟨hsort, d, ds, hdates, hrows⟩ := extractFieldCounts_ok_some h
  have hfst : rows.map Prod.fst = dateRange (ds.foldl Nat.min d) today := by
    rw [hrows]
    exact dateRange_map_fst _ _ _
  refine ⟨rfl, ⟨ds.foldl Nat.min d, ?_, ?_, hfst, ?_⟩, ?_, ?_, ?_,
    pySortedLabels_ok_sorted hsort, ?_⟩
  · rw [hdates]
    exact foldl_min_mem ds d
  · intro x hx
    rw [hdates] at hx
    exact foldl_min_le ds d x hx
  · intro x
    rw [hfst]
    exact mem_dateRange
  · rw [hfst]
    exact nodup_dateRange _ _
  · intro r hr
    rw [hrows] at hr
    obtain ⟨day, _, rfl⟩ := List.mem_map.mp hr
    rfl
  · intro s
    exact (pySortedLabels_ok_perm hsort).mem_iff
  · intro snap s hts
    unfold countLabel
    apply congrArg List.length
    apply List.filter_congr
    intro iss _
    show (pyTruthy (scanState (timeline fieldId iss) snap)
      && (scanState (timeline fieldId iss) snap == s))
      = (scanState (timeline fieldId iss) snap == s)
    cases hb : (scanState (timeline fieldId iss) snap == s) with
    | true =>
      have hcs : scanState (timeline fieldId iss) snap = s := beq_iff_eq.mp hb
      rw [hcs, hts, Bool.true_and]
    | false =>
      rw [Bool.and_false]

/-- Witness for C2 (amended) at the concrete two-transition entity. -/
theorem c2_amended_witness :
    extractFieldCounts "status" ([] : List Issue) 19728 = .ok none ∧
    countLabel "status" [c8Issue] (midnight 19725) (some "Open")
      = ([c8Issue].filter fun iss =>
          scanState (timeline "status" iss) (midnight 19725)
            == some "Open").length := by
  have h := c2_amended "status" [c8Issue] 19728
    [(19723, [0, 0, 1]), (19724, [0, 0, 1]), (19725, [0, 0, 1]),
     (19726, [0, 1, 0]), (19727, [0, 1, 0]), (19728, [1, 0, 0])]
    [some "Done", some "InProgress", some "Open"] rfl
  exact ⟨h.1, h.2.2.2.2.2.2 (midnight 19725) (some "Open") (by decide)⟩

/-- C3 as stated is false: a pair whose only event is IGNORE-classified has
equal (zero) IN and OUT counts, but contributes nothing to the day's flow —
the day stays `(0, 0)` instead of the claimed `(1, 1)`. -/
theorem c3_counterexample :
    flowTransitions "status" [c3Issue] = [⟨"K", 10, "A", "B"⟩] ∧
    ticketDateCounts ([] : Config) (flowTransitions "status" [c3Issue])
      "K" 10 = (0, 0) ∧
    extractFlowCounts ([] : Config) "status" [c3Issue] 10 = [(10, 0, 0)] :=
  ⟨rfl, rfl, rfl⟩

/-- C3 (amended): only `(entity, date)` pairs with at least one IN, OUT or
INOUT event enter the per-pair table (their counters are never both zero);
the day's IN counter counts the pairs of that date with `OUT_count <=
IN_count` and the day's OUT counter those with `IN_count <= OUT_count`
(so strict majorities increment one side and ties increment both); pairs
with no classified event contribute nothing. -/
theorem c3_amended (config : Config) (trs : List Transition) (d : Nat) :
    dayFlow config trs d
      = (((classifiedPairs config trs).filter fun p => p.2 = d).countP
            (fun p => decide ((ticketDateCounts config trs p.1 p.2).2
              ≤ (ticketDateCounts config trs p.1 p.2).1)),
         ((classifiedPairs config trs).filter fun p => p.2 = d).countP
            (fun p => decide ((ticketDateCounts config trs p.1 p.2).1
              ≤ (ticketDateCounts config trs p.1 p.2).2))) ∧
    (∀ p ∈ classifiedPairs config trs,
      ticketDateCounts config trs p.1 p.2 ≠ (0, 0)) ∧
    (∀ p : String × Nat, p ∈ classifiedPairs config trs ↔
      ∃ t ∈ trs, classifies config t = true ∧ t.key = p.1 ∧ t.date = p.2) ∧
    (∀ i o : Nat, pairContribution i o
      = ((if o ≤ i then 1 else 0), (if i ≤ o then 1 else 0))) :=
  ⟨dayFlow_eq config trs d, fun _ hp => classifiedPairs_counts_ne_zero hp,
   fun _ => mem_classifiedPairs, pairContribution_eq⟩

/-- Witness for C3 (amended) at the concrete classified transition. -/
theorem c3_amended_witness :
    dayFlow c5Config (flowTransitions "status" [c5Issue]) 12 = (1, 0) ∧
    ticketDateCounts c5Config (flowTransitions "status" [c5Issue]) "K" 12
      ≠ (0, 0) := by
  have h := c3_amended c5Config (flowTransitions "status" [c5Issue]) 12
  constructor
  · rw [h.1]
    rfl
  · exact h.2.1 ("K", 12) (by decide)


/-- C4 as stated is false: with no matrix present the run does bootstrap an
all-IGNORE matrix and produces no flow table, but the snapshot table has
already been written by `extract_field_counts` before the halt. -/
theorem c4_counterexample :
    runMain "status" [c5Issue] 12 none = .ok
      { rows := [(10, [1, 0, 0]), (11, [0, 1, 0]), (12, [0, 1, 0])],
        statusList := [some "A", some "B", some "C"],
        flow := none,
        wroteMatrix := some
          [("A", [("A", "IGNORE"), ("B", "IGNORE"), ("C", "IGNORE")]),
           ("B", [("A", "IGNORE"), ("B", "IGNORE"), ("C", "IGNORE")]),
           ("C", [("A", "IGNORE"), ("B", "IGNORE"), ("C", "IGNORE")])] } ∧
    ([(10, [1, 0, 0]), (11, [0, 1, 0]), (12, [0, 1, 0])] :
      List (Nat × List Nat)) ≠ [] :=
  ⟨rfl, by simp⟩

/-- C4 (amended): when the matrix file is absent, the run writes a matrix
whose row keys and every row's column keys are exactly the observed labels,
with every entry IGNORE; it produces no flow table; the snapshot table is
still the ordinary `extract_field_counts` output (already produced before the
halt); and the written matrix depends only on the observed label set, so two
runs on the same input write identical matrices. -/
theorem c4_amended (fieldId : String) (issues : List Issue) (today : Nat)
    (r : MainResult)
    (h : runMain fieldId issues today none = .ok r) (hr : r.rows ≠ []) :
    r.flow = none ∧
    r.wroteMatrix = some (bootstrapMatrix (flowStatuses fieldId issues)) ∧
    extractFieldCounts fieldId issues today
      = .ok (some (r.rows, r.statusList)) ∧
    (bootstrapMatrix (flowStatuses fieldId issues)).map Prod.fst
      = flowStatuses fieldId issues ∧
    (∀ row ∈ bootstrapMatrix (flowStatuses fieldId issues),
      row.2.map Prod.fst = flowStatuses fieldId issues ∧
      ∀ e ∈ row.2, e.2 = "IGNORE") ∧
    (∀ issues2 : List Issue,
      flowStatuses fieldId issues2 = flowStatuses fieldId issues →
      bootstrapMatrix (flowStatuses fieldId issues2)
        = bootstrapMatrix (flowStatuses fieldId issues)) := by
  unfold runMain at h
  split at h
  · exact absurd h (by simp)
  · have h2 : Except.ok (⟨[], [], none, none⟩ : MainResult) = Except.ok r := h
    rw [Except.ok.injEq] at h2
    rw [← h2] at hr
    simp at hr
  · rename_i rows sl hextract
    have h2 : Except.ok
        (⟨rows, sl, none,
          some (bootstrapMatrix (flowStatuses fieldId issues))⟩ : MainResult)
        = Except.ok r := h
    rw [Except.ok.injEq] at h2
    subst h2
    exact ⟨rfl, rfl, hextract, bootstrapMatrix_keys _,
      fun _ hrow => bootstrapMatrix_rows hrow, fun _ h2 => by rw [h2]⟩

/-- Witness for C4 (amended) at a concrete dataset with no matrix. -/
theorem c4_amended_witness :
    ({ rows := [(10, [1, 0, 0]), (11, [0, 1, 0]), (12, [0, 1, 0])],
       statusList := [some "A", some "B", some "C"],
       flow := none,
       wroteMatrix := some
         [("A", [("A", "IGNORE"), ("B", "IGNORE"), ("C", "IGNORE")]),
          ("B", [("A", "IGNORE"), ("B", "IGNORE"), ("C", "IGNORE")]),
          ("C", [("A", "IGNORE"), ("B", "IGNORE"), ("C", "IGNORE")])] }
      : MainResult).flow = none ∧
    (bootstrapMatrix (flowStatuses "status" [c5Issue])).map Prod.fst
      = flowStatuses "status" [c5Issue] := by
  have h := c4_amended "status" [c5Issue] 12
    { rows := [(10, [1, 0, 0]), (11, [0, 1, 0]), (12, [0, 1, 0])],
      statusList := [some "A", some "B", some "C"],
      flow := none,
      wroteMatrix := some
        [("A", [("A", "IGNORE"), ("B", "IGNORE"), ("C", "IGNORE")]),
         ("B", [("A", "IGNORE"), ("B", "IGNORE"), ("C", "IGNORE")]),
         ("C", [("A", "IGNORE"), ("B", "IGNORE"), ("C", "IGNORE")])] }
    rfl (by simp)
  exact ⟨h.1, h.2.2.2.1⟩

/-- C5 as stated is false: the flow date range starts at the earliest
transition of the field regardless of classification, so with an IGNORE
transition on day 10 and the earliest classified transition on day 12 the
table still has rows for days 10 and 11. -/
theorem c5_counterexample :
    ((flowTransitions "status" [c5Issue]).filter (classifies c5Config)).map
        (fun t => t.date) = [12] ∧
    extractFlowCounts c5Config "status" [c5Issue] 12
      = [(10, 0, 0), (11, 0, 0), (12, 1, 0)] :=
  ⟨rfl, rfl⟩

/-- C5 (amended): given at least one transition of the field, the flow table
has exactly one row per calendar date from the earliest transition date (of
any classification) through today inclusive, no other dates, each row being
that date's accumulated flow pair, and `(0, 0)` on dates with no classified
pair. -/
theorem c5_amended (config : Config) (fieldId : String) (issues : List Issue)
    (today : Nat) (h : flowTransitions fieldId issues ≠ []) :
    (extractFlowCounts config fieldId issues today).map Prod.fst
      = dateRange (flowStartDate (flowTransitions fieldId issues) today)
          today ∧
    ((extractFlowCounts config fieldId issues today).map Prod.fst).Nodup ∧
    (∀ x, x ∈ (extractFlowCounts config fieldId issues today).map Prod.fst ↔
      flowStartDate (flowTransitions fieldId issues) today ≤ x
        ∧ x ≤ today) ∧
    flowStartDate (flowTransitions fieldId issues) today
      ∈ (flowTransitions fieldId issues).map (fun t => t.date) ∧
    (∀ x ∈ (flowTransitions fieldId issues).map (fun t => t.date),
      flowStartDate (flowTransitions fieldId issues) today ≤ x) ∧
    (∀ r ∈ extractFlowCounts config fieldId issues today,
      r.2 = dayFlow config (flowTransitions fieldId issues) r.1) ∧
    (∀ d, ((classifiedPairs config (flowTransitions fieldId issues)).filter
        fun p => p.2 = d) = [] →
      dayFlow config (flowTransitions fieldId issues) d = (0, 0)) := by
  have hmin := flowStartDate_min today h
  have hfst : (extractFlowCounts config fieldId issues today).map Prod.fst
      = dateRange (flowStartDate (flowTransitions fieldId issues) today)
          today := by
    rw [extractFlowCounts_eq]
    exact dateRange_map_fst _ _ _
  refine ⟨hfst, ?_, ?_, hmin.1, hmin.2, ?_, ?_⟩
  · rw [hfst]
    exact nodup_dateRange _ _
  · intro x
    rw [hfst]
    exact mem_dateRange
  · intro r hr
    rw [extractFlowCounts_eq] at hr
    obtain ⟨day, _, rfl⟩ := List.mem_map.mp hr
    rfl
  · intro d hd
    exact dayFlow_of_no_pairs hd

/-- Witness for C5 (amended) at the concrete two-transition entity. -/
theorem c5_amended_witness :
    (extractFlowCounts c5Config "status" [c5Issue] 12).map Prod.fst
      = dateRange (flowStartDate (flowTransitions "status" [c5Issue]) 12)
          12 ∧
    dayFlow c5Config (flowTransitions "status" [c5Issue]) 11 = (0, 0) := by
  have h := c5_amended c5Config "status" [c5Issue] 12 (by decide)
  exact ⟨h.1, h.2.2.2.2.2.2 11 (by decide)⟩

/-- C6 as stated is false: in the flow path an absent fromString becomes the
empty-string label, which enters the observed status set. -/
theorem c6_counterexample :
    flowTransitions "status" [c6Issue] = [⟨"K", 100, "", "B"⟩] ∧
    "" ∈ flowStatuses "status" [c6Issue] ∧
    orEmpty none = "" :=
  ⟨rfl, by decide, rfl⟩

/-- C6 (amended): structured values normalize to their display name and
scalars to themselves; in the snapshot path absent or empty values become
the `None` marker (never the empty-string label); but in the flow path
absent or empty values become the empty string itself. -/
theorem c6_amended (fieldId : String) (issue : Issue)
    (e : Nat × Label × Label) (he : e ∈ historyEvents fieldId issue)
    (v : Option String) :
    (e.2.1 ≠ some "" ∧ e.2.2 ≠ some "") ∧
    (orNone v = none ↔ v = none ∨ v = some "") ∧
    (orEmpty v = "" ↔ v = none ∨ v = some "") ∧
    normVal none = none ∧
    (∀ name, normVal (some (.obj name)) = name) ∧
    (∀ s, normVal (some (.str s)) = some s) := by
  refine ⟨historyEvents_no_empty_label he, ?_, ?_, rfl, fun _ => rfl,
    fun _ => rfl⟩
  · cases v with
    | none => simp [orNone]
    | some s => by_cases hs : s = "" <;> simp [orNone, hs]
  · cases v with
    | none => simp [orEmpty]
    | some s => by_cases hs : s = "" <;> simp [orEmpty, hs]

/-- Witness for C6 (amended) at a concrete extracted event. -/
theorem c6_amended_witness :
    ((1704276000 : Nat), (some "Open" : Label),
      (some "InProgress" : Label)).2.1 ≠ some "" ∧
    orEmpty none = "" := by
  have h := c6_amended "status" c8Issue
    (1704276000, some "Open", some "InProgress") (by decide) none
  exact ⟨h.1.1, h.2.2.1.mpr (Or.inl rfl)⟩


/-- C7: the initial state is the earliest history event's from-value when
that value is non-null (the list head after the ascending sort, which is
instant-minimal); otherwise the normalized current field value (display name
for structured values); in particular a current value `{"name": "Closed"}`
with no history yields the single-fact timeline `[(creation midnight,
"Closed")]`. -/
theorem c7_initial_state (fieldId : String) (issue : Issue) :
    (∀ e es s, historyEvents fieldId issue = e :: es → e.2.1 = some s →
      initStatus fieldId issue = some s ∧ ∀ f ∈ es, e.1 ≤ f.1) ∧
    (historyEvents fieldId issue = [] →
      initStatus fieldId issue = normVal issue.fieldVal) ∧
    (∀ e es, historyEvents fieldId issue = e :: es → e.2.1 = none →
      initStatus fieldId issue = normVal issue.fieldVal) ∧
    timeline "status" c7Issue
      = [(midnight (dateOf c7Issue.created), some "Closed")] := by
  refine ⟨?_, ?_, ?_, rfl⟩
  · intro e es s heq hsome
    have hmem : e ∈ historyEvents fieldId issue := by
      rw [heq]
      exact List.mem_cons_self _ _
    have hne : s ≠ "" := by
      intro habs
      exact (historyEvents_no_empty_label hmem).1 (habs ▸ hsome)
    constructor
    · unfold initStatus
      rw [heq]
      show (if pyTruthy e.2.1 then e.2.1 else normVal issue.fieldVal)
        = some s
      rw [hsome]
      simp [pyTruthy, hne]
    · intro f hf
      have hs := historyEvents_sorted fieldId issue
      rw [heq, List.pairwise_cons] at hs
      exact hs.1 f hf
  · intro heq
    unfold initStatus
    rw [heq]
  · intro e es heq hnone
    unfold initStatus
    rw [heq]
    show (if pyTruthy e.2.1 then e.2.1 else normVal issue.fieldVal) = _
    rw [hnone]
    rfl

/-- Witness for C7 at concrete entities with and without history. -/
theorem c7_witness :
    initStatus "status" c8Issue = some "Open" ∧
    timeline "status" c7Issue
      = [(midnight (dateOf c7Issue.created), some "Closed")] := by
  have h := c7_initial_state "status" c8Issue
  refine ⟨(h.1 (1704276000, some "Open", some "InProgress")
    [(1704445200, some "InProgress", some "Done")] "Open" rfl rfl).1, ?_⟩
  exact (c7_initial_state "status" c7Issue).2.2.2

/-- C8 as stated is false: a snapshot is taken at each date's midnight, so on
2024-01-03 (day 19725) the 10:00 transition has not yet happened and the
entity still counts as Open, not InProgress. -/
theorem c8_counterexample :
    extractFieldCounts "status" [c8Issue] 19728
      = .ok (some ([(19723, [0, 0, 1]), (19724, [0, 0, 1]),
          (19725, [0, 0, 1]), (19726, [0, 1, 0]), (19727, [0, 1, 0]),
          (19728, [1, 0, 0])],
        [some "Done", some "InProgress", some "Open"])) ∧
    countLabel "status" [c8Issue] (midnight 19725) (some "InProgress") = 0 :=
  ⟨rfl, rfl⟩

theorem countLabel_single (fieldId : String) (iss : Issue) (snap : Nat)
    (s c : Label) (hscan : scanState (timeline fieldId iss) snap = c) :
    countLabel fieldId [iss] snap s
      = if pyTruthy c && (c == s) then 1 else 0 := by
  rw [countLabel_cons, hscan,
    show countLabel fieldId ([] : List Issue) snap s = 0 from rfl,
    Nat.add_zero]

/-- C8 (amended): the entity counts as Open on days 19723-19725
(2024-01-01..03), as InProgress on 19726-19727 (2024-01-04..05), and as Done
from 19728 (2024-01-06) through today; the snapshot table is the day range
19723..today with those per-label counts. -/
theorem c8_amended (today : Nat) (_h : 19728 ≤ today) :
    (∀ d, 19723 ≤ d → d ≤ 19725 →
      countLabel "status" [c8Issue] (midnight d) (some "Open") = 1 ∧
      countLabel "status" [c8Issue] (midnight d) (some "InProgress") = 0 ∧
      countLabel "status" [c8Issue] (midnight d) (some "Done") = 0) ∧
    (∀ d, 19726 ≤ d → d ≤ 19727 →
      countLabel "status" [c8Issue] (midnight d) (some "Open") = 0 ∧
      countLabel "status" [c8Issue] (midnight d) (some "InProgress") = 1 ∧
      countLabel "status" [c8Issue] (midnight d) (some "Done") = 0) ∧
    (∀ d, 19728 ≤ d → d ≤ today →
      countLabel "status" [c8Issue] (midnight d) (some "Open") = 0 ∧
      countLabel "status" [c8Issue] (midnight d) (some "InProgress") = 0 ∧
      countLabel "status" [c8Issue] (midnight d) (some "Done") = 1) ∧
    extractFieldCounts "status" [c8Issue] today
      = .ok (some ((dateRange 19723 today).map fun day =>
          (day, [some "Done", some "InProgress", some "Open"].map
            (countLabel "status" [c8Issue] (midnight day))),
          [some "Done", some "InProgress", some "Open"])) := by
  have htl : timeline "status" c8Issue
      = [(1704067200, some "Open"), (1704276000, some "InProgress"),
         (1704445200, some "Done")] := rfl
  have hOpen : ∀ d, 19723 ≤ d → d ≤ 19725 →
      scanState (timeline "status" c8Issue) (midnight d) = some "Open" := by
    intro d h1 h2
    rw [htl]
    simp only [scanState, scanStateAux, midnight]
    rw [if_pos (by omega), if_neg (by omega)]
  have hIP : ∀ d, 19726 ≤ d → d ≤ 19727 →
      scanState (timeline "status" c8Issue) (midnight d)
        = some "InProgress" := by
    intro d h1 h2
    rw [htl]
    simp only [scanState, scanStateAux, midnight]
    rw [if_pos (by omega), if_pos (by omega), if_neg (by omega)]
  have hDone : ∀ d, 19728 ≤ d →
      scanState (timeline "status" c8Issue) (midnight d) = some "Done" := by
    intro d h1
    rw [htl]
    simp only [scanState, scanStateAux, midnight]
    rw [if_pos (by omega), if_pos (by omega), if_pos (by omega)]
  refine ⟨?_, ?_, ?_, rfl⟩
  · intro d h1 h2
    rw [countLabel_single _ _ _ _ _ (hOpen d h1 h2),
      countLabel_single _ _ _ _ _ (hOpen d h1 h2),
      countLabel_single _ _ _ _ _ (hOpen d h1 h2)]
    refine ⟨by decide, by decide, by decide⟩
  · intro d h1 h2
    rw [countLabel_single _ _ _ _ _ (hIP d h1 h2),
      countLabel_single _ _ _ _ _ (hIP d h1 h2),
      countLabel_single _ _ _ _ _ (hIP d h1 h2)]
    refine ⟨by decide, by decide, by decide⟩
  · intro d h1 h2
    rw [countLabel_single _ _ _ _ _ (hDone d h1),
      countLabel_single _ _ _ _ _ (hDone d h1),
      countLabel_single _ _ _ _ _ (hDone d h1)]
    refine ⟨by decide, by decide, by decide⟩

/-- Witness for C8 (amended) at today = day 19730. -/
theorem c8_amended_witness :
    countLabel "status" [c8Issue] (midnight 19725) (some "Open") = 1 ∧
    countLabel "status" [c8Issue] (midnight 19729) (some "Done") = 1 := by
  have h := c8_amended 19730 (by decide)
  exact ⟨(h.1 19725 (by decide) (by decide)).1,
    (h.2.2.1 19729 (by decide) (by decide)).2.2⟩

/-- C9: for every date row of the snapshot table, the summed counts across
all state labels are at most the number of entities — each entity
contributes to at most one label per date. -/
theorem c9_row_sum_le (fieldId : String) (issues : List Issue) (today : Nat)
    (rows : List (Nat × List Nat)) (sl : List Label) (r : Nat × List Nat)
    (h : extractFieldCounts fieldId issues today = .ok (some (rows, sl)))
    (hr : r ∈ rows) :
    r.2.sum ≤ issues.length := by
  obtain ⟨hsort, d, ds, hdates, hrows⟩ := extractFieldCounts_ok_some h
  have hnd := sl_nodup_of_ok hsort
  rw [hrows] at hr
  obtain ⟨day, _, rfl⟩ := List.mem_map.mp hr
  exact counts_sum_le fieldId (midnight day) issues sl hnd

/-- Witness for C9 at the concrete two-transition entity. -/
theorem c9_witness :
    (((19725 : Nat), ([0, 0, 1] : List Nat)).2.sum ≤ [c8Issue].length) :=
  c9_row_sum_le "status" [c8Issue] 19728
    [(19723, [0, 0, 1]), (19724, [0, 0, 1]), (19725, [0, 0, 1]),
     (19726, [0, 1, 0]), (19727, [0, 1, 0]), (19728, [1, 0, 0])]
    [some "Done", some "InProgress", some "Open"]
    (19725, [0, 0, 1]) rfl (by decide)

/-- C10: when the observed labels contain both `None` and a string, the
snapshot aggregation aborts (the `sorted` call raises `TypeError`) before
any row is emitted; and an entity whose scanned state is `None` adds nothing
to any label's tally. -/
theorem c10_mixed_labels_abort (fieldId : String) (issues : List Issue)
    (today snap : Nat) (s : String) (iss : Issue) (rest : List Issue)
    (h1 : none ∈ allStatuses fieldId issues)
    (h2 : some s ∈ allStatuses fieldId issues)
    (h3 : scanState (timeline fieldId iss) snap = none) :
    extractFieldCounts fieldId issues today = .error () ∧
    ∀ s2, countLabel fieldId (iss :: rest) snap s2
      = countLabel fieldId rest snap s2 := by
  constructor
  · have hne : issues ≠ [] := mem_allStatuses_ne_nil h1
    have hdne : eventDates fieldId issues ≠ [] := by
      intro habs
      exact hne ((eventDates_nil_iff fieldId issues).mp habs)
    rcases hd : eventDates fieldId issues with _ | ⟨d, ds⟩
    · exact absurd hd hdne
    · unfold extractFieldCounts
      rw [hd, pySortedLabels_error h1 h2]
  · intro s2
    rw [countLabel_cons, h3]
    simp [pyTruthy]

/-- Witness for C10 at an entity whose null-from history yields the `None`
initial state next to the string label B. -/
theorem c10_witness :
    extractFieldCounts "status" [c6Issue] 101 = .error () ∧
    countLabel "status" [c6Issue] (midnight 100) (some "B")
      = countLabel "status" [] (midnight 100) (some "B") := by
  have h := c10_mixed_labels_abort "status" [c6Issue] 101 (midnight 100)
    "B" c6Issue [] (by decide) (by decide) (by decide)
  exact ⟨h.1, h.2 (some "B")⟩


end JiraStat
